import Mathlib

/-!
Verification of the transaction categorization rule engine and the
categories store of the finance_hub_tdd repository.

The data contracts (`ConditionType`, `FieldName`, the option lists, the
`CategorizationRule` / `Category` shapes and the Zustand categories store)
are embedded from `frontend/src/types/company.ts` (categories section) and
`frontend/src/store/categories.ts`.  The rule engine itself (condition
evaluator, rule ordering, matcher, batch categorizer, validator/tester) has
no implementation in the visible repository — only its REST call sites in
`services/categories.ts` — so those operations are modelled from the
specification, as marked on each definition.
-/

namespace FinanceHub

/-- Condition types for categorization rules, embedded from the
`ConditionType` union in `frontend/src/types/company.ts`. -/
inductive ConditionType where
  | CONTAINS
  | EQUALS
  | STARTS_WITH
  | ENDS_WITH
  | REGEX
  | GREATER_THAN
  | LESS_THAN
  | GREATER_EQUAL
  | LESS_EQUAL
deriving DecidableEq

/-- Field names for categorization rules, embedded from the `FieldName`
union in `frontend/src/types/company.ts`. -/
inductive FieldName where
  | description
  | amount
  | transaction_type
  | category
deriving DecidableEq

/-- Embedded from `ConditionTypeOption` in `frontend/src/types/company.ts`. -/
structure ConditionTypeOption where
  value : ConditionType
  label : String
deriving DecidableEq

/-- Embedded from `FieldNameOption` in `frontend/src/types/company.ts`. -/
structure FieldNameOption where
  value : FieldName
  label : String
deriving DecidableEq

/-- Embedded from `CONDITION_TYPE_OPTIONS` in
`frontend/src/types/company.ts`. -/
def CONDITION_TYPE_OPTIONS : List ConditionTypeOption :=
  [ { value := ConditionType.CONTAINS, label := "Contains" },
    { value := ConditionType.EQUALS, label := "Equals" },
    { value := ConditionType.STARTS_WITH, label := "Starts with" },
    { value := ConditionType.ENDS_WITH, label := "Ends with" },
    { value := ConditionType.REGEX, label := "Regular expression" },
    { value := ConditionType.GREATER_THAN, label := "Greater than" },
    { value := ConditionType.LESS_THAN, label := "Less than" },
    { value := ConditionType.GREATER_EQUAL, label := "Greater than or equal" },
    { value := ConditionType.LESS_EQUAL, label := "Less than or equal" } ]

/-- Embedded from `FIELD_NAME_OPTIONS` in `frontend/src/types/company.ts`. -/
def FIELD_NAME_OPTIONS : List FieldNameOption :=
  [ { value := FieldName.description, label := "Description" },
    { value := FieldName.amount, label := "Amount" },
    { value := FieldName.transaction_type, label := "Transaction Type" },
    { value := FieldName.category, label := "Category" } ]

namespace Engine

/-- Transaction type, embedded from the `TransactionType` union in
`frontend/src/types/banking.ts`. -/
inductive TxnType where
  | DEBIT
  | CREDIT
deriving DecidableEq

/-- Modelled from the spec: the transaction consumed by the engine (§3).
Readable fields follow the `Transaction` interface of
`frontend/src/types/banking.ts` (description, amount, transaction_type and
the bank-provided `category` string); `assigned_category` is the nullable
assignable category reference that the engine writes and never reads. -/
structure Txn where
  id : Nat
  company : Nat
  description : String
  amount : Rat
  transaction_type : TxnType
  category : String
  assigned_category : Option Nat
deriving DecidableEq

/-- Modelled from the spec: a persisted `CategorizationRule` (§3), with the
category reference kept as an id into the category table. -/
structure Rule where
  id : Nat
  company : Nat
  category : Nat
  name : String
  condition_type : FinanceHub.ConditionType
  field_name : FinanceHub.FieldName
  field_value : String
  priority : Int
  is_active : Bool
deriving DecidableEq

/-- Modelled from the spec: the validation-error taxonomy of §4.1/§7. -/
inductive ValidationErrorKind where
  | InvalidPattern
  | InvalidFieldCombination
  | InvalidNumericLiteral
deriving DecidableEq

/-- Numeric value of a list of decimal digit characters. -/
def digitsVal (cs : List Char) : Nat :=
  cs.foldl (fun acc c => acc * 10 + (c.toNat - 48)) 0

/-- Modelled from the spec: parsing a `field_value` as a signed decimal
number (§3/§4.1): optional leading minus, a nonempty run of digits, and an
optional fractional part introduced by a dot. -/
def parseDec (s : String) : Option Rat :=
  let cs := s.toList
  let signed : Bool × List Char :=
    match cs with
    | '-' :: rest => (true, rest)
    | _ => (false, cs)
  let intPart := signed.2.takeWhile Char.isDigit
  let rest := signed.2.dropWhile Char.isDigit
  if intPart.isEmpty then none
  else
    let mag : Option Rat :=
      match rest with
      | [] => some (mkRat (Int.ofNat (digitsVal intPart)) 1)
      | '.' :: frac =>
        if frac.isEmpty || !(frac.all Char.isDigit) then none
        else some (mkRat (Int.ofNat (digitsVal (intPart ++ frac))) (10 ^ frac.length))
      | _ => none
    mag.map (fun m => if signed.1 then Rat.neg m else m)

/-- Modelled from the spec: regular-expression abstract syntax for the
REGEX condition type (§4.1) — literals, wildcard, concatenation,
alternation and Kleene star. -/
inductive RE where
  | emp : RE
  | eps : RE
  | chr : Char → RE
  | any : RE
  | cat : RE → RE → RE
  | alt : RE → RE → RE
  | star : RE → RE
deriving DecidableEq

/-- One optional postfix repetition operator after an atom. -/
def parseRepOp (r : RE) (s : List Char) : RE × List Char :=
  match s with
  | '*' :: rest => (RE.star r, rest)
  | '+' :: rest => (RE.cat r (RE.star r), rest)
  | '?' :: rest => (RE.alt r RE.eps, rest)
  | _ => (r, s)

mutual

/-- Modelled from the spec: fuel-bounded recursive-descent parser for the
REGEX pattern grammar — alternation level. -/
def parseAlt : Nat → List Char → Option (RE × List Char)
  | 0, _ => none
  | fuel+1, s =>
    match parseCat fuel s with
    | none => none
    | some (r, s') =>
      match s' with
      | '|' :: s'' =>
        match parseAlt fuel s'' with
        | none => none
        | some (r2, s''') => some (RE.alt r r2, s''')
      | _ => some (r, s')

/-- Concatenation level of the REGEX pattern parser. -/
def parseCat : Nat → List Char → Option (RE × List Char)
  | 0, _ => none
  | fuel+1, s =>
    match s with
    | [] => some (RE.eps, [])
    | ')' :: _ => some (RE.eps, s)
    | '|' :: _ => some (RE.eps, s)
    | _ =>
      match parseRep fuel s with
      | none => none
      | some (r, s') =>
        match parseCat fuel s' with
        | none => none
        | some (r2, s'') => some (RE.cat r r2, s'')

/-- Repetition level of the REGEX pattern parser. -/
def parseRep : Nat → List Char → Option (RE × List Char)
  | 0, _ => none
  | fuel+1, s =>
    match parseAtom fuel s with
    | none => none
    | some (r, s') => some (parseRepOp r s')

/-- Atom level of the REGEX pattern parser: literal characters (lowered,
REGEX matching being case-insensitive per §9), escapes, the wildcard dot
and parenthesised groups; an unmatched or misplaced metacharacter fails. -/
def parseAtom : Nat → List Char → Option (RE × List Char)
  | 0, _ => none
  | fuel+1, s =>
    match s with
    | [] => none
    | '(' :: rest =>
      match parseAlt fuel rest with
      | some (r, ')' :: rest') => some (r, rest')
      | _ => none
    | ')' :: _ => none
    | '|' :: _ => none
    | '*' :: _ => none
    | '+' :: _ => none
    | '?' :: _ => none
    | '\\' :: rest =>
      match rest with
      | [] => none
      | c :: rest' => some (RE.chr c.toLower, rest')
    | '.' :: rest => some (RE.any, rest)
    | c :: rest => some (RE.chr c.toLower, rest)

end

/-- Modelled from the spec: compiling a REGEX `field_value` (§4.1); `none`
is an invalid pattern, detected at validation time. -/
def compileRegex (s : String) : Option RE :=
  match parseAlt (4 * s.length + 4) s.toList with
  | some (r, []) => some r
  | _ => none

/-- Whether a regular expression accepts the empty word. -/
def nullable : RE → Bool
  | RE.emp => false
  | RE.eps => true
  | RE.chr _ => false
  | RE.any => false
  | RE.cat a b => nullable a && nullable b
  | RE.alt a b => nullable a || nullable b
  | RE.star _ => true

/-- Brzozowski derivative of a regular expression by one character. -/
def deriv (r : RE) (c : Char) : RE :=
  match r with
  | RE.emp => RE.emp
  | RE.eps => RE.emp
  | RE.chr d => if d == c then RE.eps else RE.emp
  | RE.any => RE.eps
  | RE.cat a b =>
    if nullable a then RE.alt (RE.cat (deriv a c) b) (deriv b c)
    else RE.cat (deriv a c) b
  | RE.alt a b => RE.alt (deriv a c) (deriv b c)
  | RE.star a => RE.cat (deriv a c) (RE.star a)

/-- Derivative-based full match of a word against a regular expression. -/
def reMatch (r : RE) : List Char → Bool
  | [] => nullable r
  | c :: cs => reMatch (deriv r c) cs

/-- Modelled from the spec: REGEX search semantics — the pattern matches if
it matches some substring of the field. -/
def reSearch (r : RE) (s : List Char) : Bool :=
  reMatch (RE.cat (RE.star RE.any) (RE.cat r (RE.star RE.any))) s

/-- Lower-cased character list of a string, the case-insensitive engine
view of string data (§4.1). -/
def lowerChars (s : String) : List Char :=
  s.toList.map Char.toLower

/-- Boolean list-prefix test. -/
def isPrefixB : List Char → List Char → Bool
  | [], _ => true
  | _ :: _, [] => false
  | a :: as, b :: bs => a == b && isPrefixB as bs

/-- Boolean list-infix (substring) test. -/
def isInfixB (needle : List Char) : List Char → Bool
  | [] => isPrefixB needle []
  | c :: rest => isPrefixB needle (c :: rest) || isInfixB needle rest

/-- Boolean list-suffix test. -/
def isSuffixB (a b : List Char) : Bool :=
  isPrefixB a.reverse b.reverse

/-- String rendering of a transaction type, as serialized by the backend. -/
def txTypeStr : TxnType → String
  | TxnType.DEBIT => "DEBIT"
  | TxnType.CREDIT => "CREDIT"

/-- Modelled from the spec: the value extracted from
`transaction[field_name]` (§4.1), as its string representation. -/
def fieldStr (t : Txn) : FinanceHub.FieldName → String
  | FinanceHub.FieldName.description => t.description
  | FinanceHub.FieldName.amount => toString t.amount
  | FinanceHub.FieldName.transaction_type => txTypeStr t.transaction_type
  | FinanceHub.FieldName.category => t.category

/-- Whether a condition type is one of the four numeric comparisons. -/
def numericCond : FinanceHub.ConditionType → Bool
  | FinanceHub.ConditionType.GREATER_THAN => true
  | FinanceHub.ConditionType.LESS_THAN => true
  | FinanceHub.ConditionType.GREATER_EQUAL => true
  | FinanceHub.ConditionType.LESS_EQUAL => true
  | _ => false

/-- Modelled from the spec: static rule validation (§4.1/§4.5): numeric
condition types are only legal on the `amount` field and need a decimal
`field_value`; REGEX needs a compilable pattern. -/
def validateRule (ct : FinanceHub.ConditionType) (fn : FinanceHub.FieldName)
    (fv : String) : Option ValidationErrorKind :=
  if numericCond ct then
    if fn ≠ FinanceHub.FieldName.amount then some ValidationErrorKind.InvalidFieldCombination
    else if (parseDec fv).isNone then some ValidationErrorKind.InvalidNumericLiteral
    else none
  else if ct = FinanceHub.ConditionType.REGEX then
    if (compileRegex fv).isNone then some ValidationErrorKind.InvalidPattern
    else none
  else none

/-- Modelled from the spec: condition evaluation on a valid rule (§4.1):
case-insensitive substring/prefix/suffix tests (empty pattern matches
everything), case-insensitive string equality with exact numeric equality
on `amount`, regex search, and numeric comparisons against the parsed
pattern. -/
def evalValid (ct : FinanceHub.ConditionType) (fn : FinanceHub.FieldName)
    (fv : String) (t : Txn) : Bool :=
  match ct with
  | FinanceHub.ConditionType.CONTAINS =>
    isInfixB (lowerChars fv) (lowerChars (fieldStr t fn))
  | FinanceHub.ConditionType.STARTS_WITH =>
    isPrefixB (lowerChars fv) (lowerChars (fieldStr t fn))
  | FinanceHub.ConditionType.ENDS_WITH =>
    isSuffixB (lowerChars fv) (lowerChars (fieldStr t fn))
  | FinanceHub.ConditionType.EQUALS =>
    match fn with
    | FinanceHub.FieldName.amount =>
      match parseDec fv with
      | some q => t.amount == q
      | none => false
    | _ => lowerChars fv == lowerChars (fieldStr t fn)
  | FinanceHub.ConditionType.REGEX =>
    match compileRegex fv with
    | some re => reSearch re (lowerChars (fieldStr t fn))
    | none => false
  | FinanceHub.ConditionType.GREATER_THAN =>
    match parseDec fv with
    | some q => decide (q < t.amount)
    | none => false
  | FinanceHub.ConditionType.LESS_THAN =>
    match parseDec fv with
    | some q => decide (t.amount < q)
    | none => false
  | FinanceHub.ConditionType.GREATER_EQUAL =>
    match parseDec fv with
    | some q => decide (q ≤ t.amount)
    | none => false
  | FinanceHub.ConditionType.LESS_EQUAL =>
    match parseDec fv with
    | some q => decide (t.amount ≤ q)
    | none => false

/-- Modelled from the spec: the Condition Evaluator contract (§4.1),
`evaluate(condition_type, field_name, field_value, transaction) →
\x7bmatched\x7d | ValidationError`. -/
def evaluate (ct : FinanceHub.ConditionType) (fn : FinanceHub.FieldName)
    (fv : String) (t : Txn) : Except ValidationErrorKind Bool :=
  match validateRule ct fn fv with
  | some e => Except.error e
  | none => Except.ok (evalValid ct fn fv t)

/-- Modelled from the spec: the evaluation order on rules (§4.2) —
ascending `priority`, ties broken by ascending rule id. -/
def ruleLE (a b : Rule) : Prop :=
  a.priority < b.priority ∨ (a.priority = b.priority ∧ a.id ≤ b.id)

instance : DecidableRel ruleLE := fun a b => by
  unfold ruleLE
  exact inferInstance

instance : IsTotal Rule ruleLE := by
  constructor
  intro a b
  unfold ruleLE
  omega

instance : IsTrans Rule ruleLE := by
  constructor
  intro a b c hab hbc
  unfold ruleLE at *
  omega

/-- Modelled from the spec: Rule Ordering (§4.2): filter to active rules,
sort ascending by priority with ties broken by ascending rule id. -/
def order (rules : List Rule) : List Rule :=
  List.insertionSort ruleLE (rules.filter (fun r => r.is_active))

/-- Whether the condition of a rule matches a transaction; a rule failing
validation is treated as not matching (skipped, §4.3). -/
def ruleMatches (r : Rule) (t : Txn) : Bool :=
  match evaluate r.condition_type r.field_name r.field_value t with
  | Except.ok b => b
  | Except.error _ => false

/-- Modelled from the spec: the Rule Matcher (§4.3): iterate the ordered
rules, return the category and rule id of the first match, `none` meaning
Uncategorized. -/
def matchRule (t : Txn) : List Rule → Option (Nat × Nat)
  | [] => none
  | r :: rs => if ruleMatches r t then some (r.category, r.id) else matchRule t rs

/-- Modelled from the spec: `CategorizationRuleCreate` draft submitted to
`create_rule` (§6), mirroring `CategorizationRuleCreate` in
`frontend/src/types/company.ts`. -/
structure RuleDraft where
  company : Nat
  category : Nat
  name : String
  condition_type : FinanceHub.ConditionType
  field_name : FinanceHub.FieldName
  field_value : String
  priority : Option Int
  is_active : Option Bool
deriving DecidableEq

/-- Modelled from the spec: the partial-field payload of `update_rule`
(§6), mirroring `CategorizationRuleUpdate` in
`frontend/src/types/company.ts`. -/
structure RuleUpdate where
  category : Option Nat
  name : Option String
  condition_type : Option FinanceHub.ConditionType
  field_name : Option FinanceHub.FieldName
  field_value : Option String
  priority : Option Int
  is_active : Option Bool
deriving DecidableEq

/-- Modelled from the spec: the engine-visible persistent state — the rule
table and the transaction table (§3). -/
structure EngineState where
  rules : List Rule
  transactions : List Txn
deriving DecidableEq

/-- Modelled from the spec: `create_rule` (§6/§4.5): validate the draft;
on failure return the `ValidationError` and leave the store untouched, on
success append the new rule. -/
def createCategorizationRule (st : EngineState) (newId : Nat) (d : RuleDraft) :
    Except ValidationErrorKind (Rule × EngineState) :=
  match validateRule d.condition_type d.field_name d.field_value with
  | some e => Except.error e
  | none =>
    let r : Rule :=
      { id := newId, company := d.company, category := d.category, name := d.name,
        condition_type := d.condition_type, field_name := d.field_name,
        field_value := d.field_value, priority := d.priority.getD 0,
        is_active := d.is_active.getD true }
    Except.ok (r, { st with rules := st.rules ++ [r] })

/-- Errors of `update_rule`: unknown rule id, or a draft failing
validation. -/
inductive UpdateError where
  | notFound
  | invalid (e : ValidationErrorKind)
deriving DecidableEq

/-- Merge the partial fields of an update into an existing rule. -/
def mergeUpdate (r : Rule) (u : RuleUpdate) : Rule :=
  { r with
    category := u.category.getD r.category,
    name := u.name.getD r.name,
    condition_type := u.condition_type.getD r.condition_type,
    field_name := u.field_name.getD r.field_name,
    field_value := u.field_value.getD r.field_value,
    priority := u.priority.getD r.priority,
    is_active := u.is_active.getD r.is_active }

/-- Modelled from the spec: `update_rule` (§6/§4.5): merge the partial
fields, re-validate the merged rule; on failure return the
`ValidationError` and leave the store untouched. -/
def updateCategorizationRule (st : EngineState) (rid : Nat) (u : RuleUpdate) :
    Except UpdateError (Rule × EngineState) :=
  match st.rules.find? (fun r => r.id == rid) with
  | none => Except.error UpdateError.notFound
  | some r0 =>
    let r1 := mergeUpdate r0 u
    match validateRule r1.condition_type r1.field_name r1.field_value with
    | some e => Except.error (UpdateError.invalid e)
    | none =>
      Except.ok (r1, { st with rules := st.rules.map (fun r => if r.id == rid then r1 else r) })

/-- Result of `test_rule`, a record with a boolean `matches` field
(`\x7bmatches: bool\x7d` in §6); the field is rendered `matched` here
because `matches` is a reserved word in Lean. -/
structure TestResult where
  matched : Bool
deriving DecidableEq

/-- Whether the condition of a rule draft matches a transaction. -/
def draftMatches (d : RuleDraft) (t : Txn) : Bool :=
  match evaluate d.condition_type d.field_name d.field_value t with
  | Except.ok b => b
  | Except.error _ => false

/-- Modelled from the spec: `test_rule` (§4.5/§6): run the Condition
Evaluator on caller-supplied field values, requiring neither the rule nor
the transaction to exist in storage and mutating no persisted state. -/
def testCategorizationRule (st : EngineState) (d : RuleDraft) (syn : Txn) :
    TestResult × EngineState :=
  ({ matched := draftMatches d syn }, st)

/-- Modelled from the spec: the batch result of `apply_categorization`
(§4.4): categorized count, total transactions, and per-transaction
failures as (transaction id, reason) pairs. -/
structure BatchResult where
  categorized_count : Nat
  total_transactions : Nat
  failures : List (Nat × String)
deriving DecidableEq

/-- The ordered active-rule snapshot of a company used by a batch run. -/
def orderedRulesFor (st : EngineState) (companyId : Nat) : List Rule :=
  order (st.rules.filter (fun r => r.company == companyId))

/-- Whether a transaction belongs to the resolved transaction set of a batch:
the transactions of the company, restricted to the requested ids when a subset
is given. -/
def isTarget (companyId : Nat) (txIds : Option (List Nat)) (t : Txn) : Bool :=
  t.company == companyId &&
    match txIds with
    | none => true
    | some ids => ids.contains t.id

/-- Categorize one transaction against the ordered rule snapshot: write
the category of the first matching rule, leave the transaction untouched when
uncategorized (§4.4). -/
def categorizeTxn (ordered : List Rule) (t : Txn) : Txn :=
  match matchRule t ordered with
  | some (c, _) => { t with assigned_category := some c }
  | none => t

/-- The per-transaction update of a batch run: target transactions are
categorized against the ordered snapshot, all others are untouched. -/
def applyStep (st : EngineState) (companyId : Nat) (txIds : Option (List Nat))
    (t : Txn) : Txn :=
  if isTarget companyId txIds t then categorizeTxn (orderedRulesFor st companyId) t
  else t

/-- Modelled from the spec: the Batch Categorizer `apply` (§4.4), the
`apply_categorization` endpoint of `services/categories.ts`: resolve the
transaction set (missing requested ids become failures, not errors), load
and order the active rules once, run the matcher over each transaction,
persist matches and count them; a total function, so it never raises. -/
def applyCategorization (st : EngineState) (companyId : Nat)
    (txIds : Option (List Nat)) : BatchResult × EngineState :=
  let ordered := orderedRulesFor st companyId
  let targets := st.transactions.filter (isTarget companyId txIds)
  let failures : List (Nat × String) :=
    match txIds with
    | none => []
    | some ids =>
      (ids.filter (fun i =>
        !(st.transactions.any (fun t => t.company == companyId && t.id == i)))).map
        (fun i => (i, "transaction not found"))
  let count := targets.countP (fun t => (matchRule t ordered).isSome)
  let newTxns := st.transactions.map (applyStep st companyId txIds)
  ({ categorized_count := count, total_transactions := targets.length,
     failures := failures },
   { st with transactions := newTxns })

end Engine

namespace Store

/-- Embedded from `CategoryParent` in `frontend/src/types/company.ts`. -/
structure CategoryParent where
  id : Nat
  name : String
  color : String
deriving DecidableEq

/-- Embedded from `CategoryNested` in `frontend/src/types/company.ts`. -/
structure CategoryNested where
  id : Nat
  name : String
  color : String
  full_path : String
deriving DecidableEq

/-- Embedded from `Category` in `frontend/src/types/company.ts`. -/
structure Category where
  id : Nat
  company : Nat
  parent : Option CategoryParent
  name : String
  color : String
  is_system : Bool
  is_active : Bool
  full_path : String
  children_count : Nat
  rules_count : Nat
  created_at : String
  updated_at : String
deriving DecidableEq

/-- Embedded from `CategorizationRule` in `frontend/src/types/company.ts`. -/
structure CategorizationRule where
  id : Nat
  company : Nat
  category : CategoryNested
  name : String
  condition_type : FinanceHub.ConditionType
  condition_display : String
  field_name : FinanceHub.FieldName
  field_display : String
  field_value : String
  priority : Int
  is_active : Bool
  created_at : String
  updated_at : String
deriving DecidableEq

/-- Embedded from `CategoryCreate` in `frontend/src/types/company.ts`. -/
structure CategoryCreate where
  company : Nat
  parent : Option (Option Nat)
  name : String
  color : String
  is_system : Option Bool
  is_active : Option Bool
deriving DecidableEq

/-- Embedded from `CategoryUpdate` in `frontend/src/types/company.ts`. -/
structure CategoryUpdate where
  parent : Option (Option Nat)
  name : Option String
  color : Option String
  is_active : Option Bool
deriving DecidableEq

/-- Embedded from `CategorizationRuleCreate` in
`frontend/src/types/company.ts`. -/
structure CategorizationRuleCreate where
  company : Nat
  category : Nat
  name : String
  condition_type : FinanceHub.ConditionType
  field_name : FinanceHub.FieldName
  field_value : String
  priority : Option Int
  is_active : Option Bool
deriving DecidableEq

/-- Embedded from `CategorizationRuleUpdate` in
`frontend/src/types/company.ts`. -/
structure CategorizationRuleUpdate where
  category : Option Nat
  name : Option String
  condition_type : Option FinanceHub.ConditionType
  field_name : Option FinanceHub.FieldName
  field_value : Option String
  priority : Option Int
  is_active : Option Bool
deriving DecidableEq

/-- Embedded from `CategoriesFilter` in `frontend/src/types/company.ts`;
the store additionally reads a `page` member off the filter object
(`filters.page || 1` in `store/categories.ts`), modelled as an optional
field. -/
structure CategoriesFilter where
  company : Option Nat
  parent : Option (Option Nat)
  is_active : Option Bool
  is_system : Option Bool
  search : Option String
  page : Option Nat
deriving DecidableEq

/-- Embedded from `CategorizationRulesFilter` in
`frontend/src/types/company.ts`, with the `page` member read by the store. -/
structure CategorizationRulesFilter where
  company : Option Nat
  category : Option Nat
  is_active : Option Bool
  search : Option String
  page : Option Nat
deriving DecidableEq

/-- The empty filter object `\x7b\x7d`. -/
def emptyCategoriesFilter : CategoriesFilter :=
  { company := none, parent := none, is_active := none, is_system := none,
    search := none, page := none }

/-- The empty rules filter object `\x7b\x7d`. -/
def emptyRulesFilter : CategorizationRulesFilter :=
  { company := none, category := none, is_active := none, search := none,
    page := none }

/-- Embedded from `CategoriesResponse` in `frontend/src/types/company.ts`. -/
structure CategoriesResponse where
  count : Nat
  next : Option String
  previous : Option String
  results : List Category
deriving DecidableEq

/-- Embedded from `CategorizationRulesResponse` in
`frontend/src/types/company.ts`. -/
structure CategorizationRulesResponse where
  count : Nat
  next : Option String
  previous : Option String
  results : List CategorizationRule
deriving DecidableEq

/-- Embedded from `CategoryTree` in `frontend/src/types/company.ts`:
a category with an optional list of child trees. -/
inductive CategoryTree where
  | node (category : Category) (children : Option (List CategoryTree))

/-- Embedded from the `Pagination` interface in
`frontend/src/store/categories.ts`. -/
structure Pagination where
  count : Nat
  page : Nat
  pageSize : Nat
  totalPages : Nat
deriving DecidableEq

/-- Embedded from `initialPagination` in `frontend/src/store/categories.ts`. -/
def initialPagination : Pagination :=
  { count := 0, page := 1, pageSize := 20, totalPages := 0 }

/-- A JavaScript rejection value: an `Error` carrying a message, or any
other thrown value. -/
inductive JsError where
  | err (message : String)
  | nonError

/-- The error-message extraction of the store,
`error instanceof Error ? error.message : "Unknown error"` (with the string quotes as in the source). -/
def errMessage : JsError → String
  | JsError.err m => m
  | JsError.nonError => "Unknown error"

/-- Embedded from the `CategoriesState` data fields of
`frontend/src/store/categories.ts`. -/
structure CategoriesState where
  categories : List Category
  currentCategory : Option Category
  categoryTree : List CategoryTree
  categoriesLoading : Bool
  categoriesError : Option String
  filters : CategoriesFilter
  pagination : Pagination
  rules : List CategorizationRule
  currentRule : Option CategorizationRule
  rulesLoading : Bool
  rulesError : Option String
  rulesFilters : CategorizationRulesFilter
  rulesPagination : Pagination

/-- The initial state of the store, embedded from the initializer in
`frontend/src/store/categories.ts`. -/
def initialState : CategoriesState :=
  { categories := [], currentCategory := none, categoryTree := [],
    categoriesLoading := false, categoriesError := none,
    filters := emptyCategoriesFilter, pagination := initialPagination,
    rules := [], currentRule := none, rulesLoading := false,
    rulesError := none, rulesFilters := emptyRulesFilter,
    rulesPagination := initialPagination }

/-- JavaScript `filters.page || 1`: `1` when `page` is absent or `0`
(falsy). -/
def pageOrOne (p : Option Nat) : Nat :=
  match p with
  | some n => if n = 0 then 1 else n
  | none => 1

/-- JavaScript `Math.ceil(count / 20)` on a natural count. -/
def ceilDiv20 (count : Nat) : Nat :=
  (count + 19) / 20

/-- Embedded from the `fetchCategories` action of
`frontend/src/store/categories.ts`; the settled service promise is passed
as an explicit `Except` and the returned state is the state once the
promise of the action settles. -/
def fetchCategories (filters : CategoriesFilter)
    (svc : Except JsError CategoriesResponse) (st : CategoriesState) :
    CategoriesState :=
  let st1 := { st with categoriesLoading := true, categoriesError := none }
  match svc with
  | Except.ok response =>
    { st1 with
      categories := response.results,
      pagination :=
        { count := response.count, page := pageOrOne filters.page,
          pageSize := 20, totalPages := ceilDiv20 response.count },
      filters := filters,
      categoriesLoading := false }
  | Except.error e =>
    { st1 with
      categoriesError := some (errMessage e),
      categoriesLoading := false }

/-- Embedded from the `fetchCategory` action of
`frontend/src/store/categories.ts`. -/
def fetchCategory (id : Nat) (svc : Except JsError Category)
    (st : CategoriesState) : CategoriesState :=
  match id, svc with
  | _, Except.ok category => { st with currentCategory := some category }
  | _, Except.error e => { st with categoriesError := some (errMessage e) }

/-- Embedded from the `createCategory` action of
`frontend/src/store/categories.ts`; the second component is the
own outcome (the created category, or the rethrown error). -/
def createCategory (data : CategoryCreate) (svc : Except JsError Category)
    (st : CategoriesState) : CategoriesState × Except JsError Category :=
  match data, svc with
  | _, Except.ok newCategory =>
    ({ st with categories := st.categories ++ [newCategory] }, Except.ok newCategory)
  | _, Except.error e =>
    ({ st with categoriesError := some (errMessage e) }, Except.error e)

/-- Embedded from the `updateCategory` action of
`frontend/src/store/categories.ts`. -/
def updateCategory (id : Nat) (data : CategoryUpdate)
    (svc : Except JsError Category) (st : CategoriesState) :
    CategoriesState × Except JsError Category :=
  match data, svc with
  | _, Except.ok updatedCategory =>
    ({ st with
       categories := st.categories.map
         (fun cat => if cat.id == id then updatedCategory else cat),
       currentCategory :=
         match st.currentCategory with
         | some c => if c.id == id then some updatedCategory else some c
         | none => none },
     Except.ok updatedCategory)
  | _, Except.error e =>
    ({ st with categoriesError := some (errMessage e) }, Except.error e)

/-- Embedded from the `deleteCategory` action of
`frontend/src/store/categories.ts`. -/
def deleteCategory (id : Nat) (svc : Except JsError Unit)
    (st : CategoriesState) : CategoriesState × Except JsError Unit :=
  match svc with
  | Except.ok _ =>
    ({ st with
       categories := st.categories.filter (fun cat => cat.id != id),
       currentCategory :=
         match st.currentCategory with
         | some c => if c.id == id then none else some c
         | none => none },
     Except.ok ())
  | Except.error e =>
    ({ st with categoriesError := some (errMessage e) }, Except.error e)

/-- Embedded from the `fetchCategoryTree` action of
`frontend/src/store/categories.ts`. -/
def fetchCategoryTree (companyId : Nat)
    (svc : Except JsError (List CategoryTree)) (st : CategoriesState) :
    CategoriesState :=
  match companyId, svc with
  | _, Except.ok tree => { st with categoryTree := tree }
  | _, Except.error e => { st with categoriesError := some (errMessage e) }

/-- Embedded from the `fetchCategorizationRules` action of
`frontend/src/store/categories.ts`. -/
def fetchCategorizationRules (filters : CategorizationRulesFilter)
    (svc : Except JsError CategorizationRulesResponse)
    (st : CategoriesState) : CategoriesState :=
  let st1 := { st with rulesLoading := true, rulesError := none }
  match svc with
  | Except.ok response =>
    { st1 with
      rules := response.results,
      rulesPagination :=
        { count := response.count, page := pageOrOne filters.page,
          pageSize := 20, totalPages := ceilDiv20 response.count },
      rulesFilters := filters,
      rulesLoading := false }
  | Except.error e =>
    { st1 with
      rulesError := some (errMessage e),
      rulesLoading := false }

/-- Embedded from the `fetchCategorizationRule` action of
`frontend/src/store/categories.ts`. -/
def fetchCategorizationRule (id : Nat)
    (svc : Except JsError CategorizationRule) (st : CategoriesState) :
    CategoriesState :=
  match id, svc with
  | _, Except.ok rule => { st with currentRule := some rule }
  | _, Except.error e => { st with rulesError := some (errMessage e) }

/-- Embedded from the `createCategorizationRule` action of
`frontend/src/store/categories.ts`. -/
def createCategorizationRule (data : CategorizationRuleCreate)
    (svc : Except JsError CategorizationRule) (st : CategoriesState) :
    CategoriesState × Except JsError CategorizationRule :=
  match data, svc with
  | _, Except.ok newRule =>
    ({ st with rules := st.rules ++ [newRule] }, Except.ok newRule)
  | _, Except.error e =>
    ({ st with rulesError := some (errMessage e) }, Except.error e)

/-- Embedded from the `updateCategorizationRule` action of
`frontend/src/store/categories.ts`. -/
def updateCategorizationRule (id : Nat) (data : CategorizationRuleUpdate)
    (svc : Except JsError CategorizationRule) (st : CategoriesState) :
    CategoriesState × Except JsError CategorizationRule :=
  match data, svc with
  | _, Except.ok updatedRule =>
    ({ st with
       rules := st.rules.map (fun rule => if rule.id == id then updatedRule else rule),
       currentRule :=
         match st.currentRule with
         | some r => if r.id == id then some updatedRule else some r
         | none => none },
     Except.ok updatedRule)
  | _, Except.error e =>
    ({ st with rulesError := some (errMessage e) }, Except.error e)

/-- Embedded from the `deleteCategorizationRule` action of
`frontend/src/store/categories.ts`. -/
def deleteCategorizationRule (id : Nat) (svc : Except JsError Unit)
    (st : CategoriesState) : CategoriesState × Except JsError Unit :=
  match svc with
  | Except.ok _ =>
    ({ st with
       rules := st.rules.filter (fun rule => rule.id != id),
       currentRule :=
         match st.currentRule with
         | some r => if r.id == id then none else some r
         | none => none },
     Except.ok ())
  | Except.error e =>
    ({ st with rulesError := some (errMessage e) }, Except.error e)

/-- The category-side state fields named by the frame claim: categories,
currentCategory, categoryTree, categoriesError, filters, pagination. -/
def categorySideEq (s1 s2 : CategoriesState) : Prop :=
  s1.categories = s2.categories ∧ s1.currentCategory = s2.currentCategory ∧
  s1.categoryTree = s2.categoryTree ∧ s1.categoriesError = s2.categoriesError ∧
  s1.filters = s2.filters ∧ s1.pagination = s2.pagination

/-- The rule-side state fields named by the frame claim: rules,
currentRule, rulesError, rulesFilters, rulesPagination. -/
def ruleSideEq (s1 s2 : CategoriesState) : Prop :=
  s1.rules = s2.rules ∧ s1.currentRule = s2.currentRule ∧
  s1.rulesError = s2.rulesError ∧ s1.rulesFilters = s2.rulesFilters ∧
  s1.rulesPagination = s2.rulesPagination

end Store

namespace Engine

/-- Fixture: the priority-1 `CONTAINS salario → CategoryA` rule of the
first-match-wins scenario of the spec (CategoryA is category id 10). -/
def exRuleA : Rule :=
  { id := 1, company := 1, category := 10, name := "Salario",
    condition_type := FinanceHub.ConditionType.CONTAINS,
    field_name := FinanceHub.FieldName.description, field_value := "salario",
    priority := 1, is_active := true }

/-- Fixture: the priority-2 `CONTAINS sal → CategoryB` rule of the
first-match-wins scenario (CategoryB is category id 20). -/
def exRuleB : Rule :=
  { id := 2, company := 1, category := 20, name := "Sal",
    condition_type := FinanceHub.ConditionType.CONTAINS,
    field_name := FinanceHub.FieldName.description, field_value := "sal",
    priority := 2, is_active := true }

/-- Fixture: the transaction described `Pagamento salario mensal`. -/
def exTxn : Txn :=
  { id := 1, company := 1, description := "Pagamento salario mensal",
    amount := 100, transaction_type := TxnType.DEBIT, category := "",
    assigned_category := none }

/-- Fixture: a transaction matching neither example rule. -/
def exTxn2 : Txn :=
  { id := 2, company := 1, description := "Aluguel",
    amount := 50, transaction_type := TxnType.DEBIT, category := "",
    assigned_category := none }

/-- Fixture: an engine state holding both example rules and both example
transactions. -/
def exState : EngineState :=
  { rules := [exRuleA, exRuleB], transactions := [exTxn, exTxn2] }

end Engine

/-- C8: every `CategorizationRule` value draws its `condition_type` from
exactly the nine values CONTAINS, EQUALS, STARTS_WITH, ENDS_WITH, REGEX,
GREATER_THAN, LESS_THAN, GREATER_EQUAL, LESS_EQUAL and its `field_name`
from exactly the four values description, amount, transaction_type,
category: the `ConditionType` and `FieldName` types are closed (every
inhabitant is listed) and the dropdown option lists enumerate exactly
these values, so no operation — all of which are typed over these two
types — produces or accepts a rule outside the closed sets. -/
theorem conditionType_fieldName_closed :
    (∀ ct : ConditionType,
      ct ∈ CONDITION_TYPE_OPTIONS.map ConditionTypeOption.value) ∧
    (∀ fn : FieldName, fn ∈ FIELD_NAME_OPTIONS.map FieldNameOption.value) ∧
    CONDITION_TYPE_OPTIONS.map ConditionTypeOption.value =
      [ConditionType.CONTAINS, ConditionType.EQUALS, ConditionType.STARTS_WITH,
       ConditionType.ENDS_WITH, ConditionType.REGEX, ConditionType.GREATER_THAN,
       ConditionType.LESS_THAN, ConditionType.GREATER_EQUAL,
       ConditionType.LESS_EQUAL] ∧
    FIELD_NAME_OPTIONS.map FieldNameOption.value =
      [FieldName.description, FieldName.amount, FieldName.transaction_type,
       FieldName.category] := by
  refine ⟨fun ct => ?_, fun fn => ?_, rfl, rfl⟩
  · cases ct <;> simp [CONDITION_TYPE_OPTIONS]
  · cases fn <;> simp [FIELD_NAME_OPTIONS]

/-- C3: `test_rule` evaluates the condition of the draft against the supplied
synthetic transaction only: the persisted state is returned unchanged, the
result is independent of the stored rules and transactions (neither the
rule nor the transaction needs to exist in storage), and its boolean
`matches` field is exactly the verdict of the Condition Evaluator. -/
theorem testCategorizationRule_pure (st st' : Engine.EngineState)
    (d : Engine.RuleDraft) (syn : Engine.Txn) :
    (Engine.testCategorizationRule st d syn).2 = st ∧
    (Engine.testCategorizationRule st d syn).1 =
      (Engine.testCategorizationRule st' d syn).1 ∧
    ((Engine.testCategorizationRule st d syn).1.matched = true ↔
      Engine.evaluate d.condition_type d.field_name d.field_value syn =
        Except.ok true) := by
  refine ⟨rfl, rfl, ?_⟩
  show Engine.draftMatches d syn = true ↔ _
  unfold Engine.draftMatches
  cases h : Engine.evaluate d.condition_type d.field_name d.field_value syn with
  | ok b => cases b <;> simp
  | error e => simp

/-- C9: once `fetchCategories` or `fetchCategorizationRules` settles, the
corresponding loading flag is false; and when the service call rejects,
the previously stored categories (resp. rules) list is unchanged while the
corresponding error field holds the message of the rejection. -/
theorem store_fetch_settles (cf : Store.CategoriesFilter)
    (csvc : Except Store.JsError Store.CategoriesResponse)
    (rf : Store.CategorizationRulesFilter)
    (rsvc : Except Store.JsError Store.CategorizationRulesResponse)
    (st : Store.CategoriesState) :
    (Store.fetchCategories cf csvc st).categoriesLoading = false ∧
    (Store.fetchCategorizationRules rf rsvc st).rulesLoading = false ∧
    (∀ e, csvc = Except.error e →
      (Store.fetchCategories cf csvc st).categories = st.categories ∧
      (Store.fetchCategories cf csvc st).categoriesError =
        some (Store.errMessage e)) ∧
    (∀ e, rsvc = Except.error e →
      (Store.fetchCategorizationRules rf rsvc st).rules = st.rules ∧
      (Store.fetchCategorizationRules rf rsvc st).rulesError =
        some (Store.errMessage e)) := by
  refine ⟨?_, ?_, ?_, ?_⟩
  · cases csvc <;> simp [Store.fetchCategories]
  · cases rsvc <;> simp [Store.fetchCategorizationRules]
  · rintro e rfl
    simp [Store.fetchCategories]
  · rintro e rfl
    simp [Store.fetchCategorizationRules]

/-- Witness for C9 at a concrete rejected call on the initial state. -/
theorem store_fetch_settles_witness :
    (Except.error (Store.JsError.err "network down") =
      (Except.error (Store.JsError.err "network down") :
        Except Store.JsError Store.CategoriesResponse)) ∧
    (Store.fetchCategories Store.emptyCategoriesFilter
        (Except.error (Store.JsError.err "network down"))
        Store.initialState).categories = Store.initialState.categories ∧
    (Store.fetchCategories Store.emptyCategoriesFilter
        (Except.error (Store.JsError.err "network down"))
        Store.initialState).categoriesError = some "network down" :=
  ⟨rfl,
    (store_fetch_settles Store.emptyCategoriesFilter
        (Except.error (Store.JsError.err "network down"))
        Store.emptyRulesFilter
        (Except.error Store.JsError.nonError)
        Store.initialState).2.2.1 (Store.JsError.err "network down") rfl⟩

/-- C10: the categorization-rule actions of the categories store leave the
category-side state fields (categories, currentCategory, categoryTree,
categoriesError, filters, pagination) unchanged, and the category actions
leave the rule-side state fields (rules, currentRule, rulesError,
rulesFilters, rulesPagination) unchanged, on both the success and the
error path (the service outcome is universally quantified). -/
theorem store_actions_frame (st : Store.CategoriesState)
    (rf : Store.CategorizationRulesFilter)
    (rlsvc : Except Store.JsError Store.CategorizationRulesResponse)
    (rid : Nat) (rsvc : Except Store.JsError Store.CategorizationRule)
    (rc : Store.CategorizationRuleCreate)
    (ru : Store.CategorizationRuleUpdate)
    (rdsvc : Except Store.JsError Unit)
    (cf : Store.CategoriesFilter)
    (clsvc : Except Store.JsError Store.CategoriesResponse)
    (cid : Nat) (csvc : Except Store.JsError Store.Category)
    (cc : Store.CategoryCreate) (cu : Store.CategoryUpdate)
    (cdsvc : Except Store.JsError Unit) (companyId : Nat)
    (tsvc : Except Store.JsError (List Store.CategoryTree)) :
    Store.categorySideEq (Store.fetchCategorizationRules rf rlsvc st) st ∧
    Store.categorySideEq (Store.fetchCategorizationRule rid rsvc st) st ∧
    Store.categorySideEq (Store.createCategorizationRule rc rsvc st).1 st ∧
    Store.categorySideEq (Store.updateCategorizationRule rid ru rsvc st).1 st ∧
    Store.categorySideEq (Store.deleteCategorizationRule rid rdsvc st).1 st ∧
    Store.ruleSideEq (Store.fetchCategories cf clsvc st) st ∧
    Store.ruleSideEq (Store.fetchCategory cid csvc st) st ∧
    Store.ruleSideEq (Store.createCategory cc csvc st).1 st ∧
    Store.ruleSideEq (Store.updateCategory cid cu csvc st).1 st ∧
    Store.ruleSideEq (Store.deleteCategory cid cdsvc st).1 st ∧
    Store.ruleSideEq (Store.fetchCategoryTree companyId tsvc st) st := by
  refine ⟨?_, ?_, ?_, ?_, ?_, ?_, ?_, ?_, ?_, ?_, ?_⟩
  · cases rlsvc <;>
      simp [Store.fetchCategorizationRules, Store.categorySideEq]
  · cases rsvc <;>
      simp [Store.fetchCategorizationRule, Store.categorySideEq]
  · cases rsvc <;>
      simp [Store.createCategorizationRule, Store.categorySideEq]
  · cases rsvc <;>
      simp [Store.updateCategorizationRule, Store.categorySideEq]
  · cases rdsvc <;>
      simp [Store.deleteCategorizationRule, Store.categorySideEq]
  · cases clsvc <;> simp [Store.fetchCategories, Store.ruleSideEq]
  · cases csvc <;> simp [Store.fetchCategory, Store.ruleSideEq]
  · cases csvc <;> simp [Store.createCategory, Store.ruleSideEq]
  · cases csvc <;> simp [Store.updateCategory, Store.ruleSideEq]
  · cases cdsvc <;> simp [Store.deleteCategory, Store.ruleSideEq]
  · cases tsvc <;> simp [Store.fetchCategoryTree, Store.ruleSideEq]

/-- C2: a rule draft pairing a numeric condition type with a field other
than `amount`, or whose `field_value` does not parse as a decimal for a
numeric condition, or whose REGEX `field_value` does not compile, is
rejected with a `ValidationError` by `create_rule` and by `update_rule`;
since both operations return no successor state on error, the rule never
enters the rule set (hence never the active rule set); and every
successful create appends a draft that passed validation. -/
theorem rule_validation_rejects (st : Engine.EngineState) (newId : Nat)
    (d : Engine.RuleDraft) (rid : Nat) (u : Engine.RuleUpdate)
    (r0 : Engine.Rule) (e : Engine.ValidationErrorKind) :
    (Engine.numericCond d.condition_type = true →
      d.field_name ≠ FieldName.amount →
      Engine.createCategorizationRule st newId d =
        Except.error Engine.ValidationErrorKind.InvalidFieldCombination) ∧
    (Engine.numericCond d.condition_type = true →
      d.field_name = FieldName.amount →
      Engine.parseDec d.field_value = none →
      Engine.createCategorizationRule st newId d =
        Except.error Engine.ValidationErrorKind.InvalidNumericLiteral) ∧
    (d.condition_type = ConditionType.REGEX →
      Engine.compileRegex d.field_value = none →
      Engine.createCategorizationRule st newId d =
        Except.error Engine.ValidationErrorKind.InvalidPattern) ∧
    (Engine.validateRule d.condition_type d.field_name d.field_value = some e →
      Engine.createCategorizationRule st newId d = Except.error e) ∧
    (st.rules.find? (fun r => r.id == rid) = some r0 →
      Engine.validateRule (Engine.mergeUpdate r0 u).condition_type
        (Engine.mergeUpdate r0 u).field_name
        (Engine.mergeUpdate r0 u).field_value = some e →
      Engine.updateCategorizationRule st rid u =
        Except.error (Engine.UpdateError.invalid e)) ∧
    (∀ r st', Engine.createCategorizationRule st newId d = Except.ok (r, st') →
      Engine.validateRule d.condition_type d.field_name d.field_value = none ∧
      st'.rules = st.rules ++ [r]) := by
  have hval : ∀ (hv : Engine.validateRule d.condition_type d.field_name
      d.field_value = some e),
      Engine.createCategorizationRule st newId d = Except.error e := by
    intro hv
    unfold Engine.createCategorizationRule
    rw [hv]
  refine ⟨?_, ?_, ?_, hval, ?_, ?_⟩
  · intro hnum hfn
    unfold Engine.createCategorizationRule Engine.validateRule
    rw [hnum]
    simp [hfn]
  · intro hnum hfn hparse
    unfold Engine.createCategorizationRule Engine.validateRule
    rw [hnum]
    simp [hfn, hparse]
  · intro hct hre
    unfold Engine.createCategorizationRule Engine.validateRule
    rw [hct]
    simp [Engine.numericCond, hre]
  · intro hfind hv
    unfold Engine.updateCategorizationRule
    rw [hfind]
    simp only
    rw [hv]
  · intro r st' hok
    unfold Engine.createCategorizationRule at hok
    cases hv : Engine.validateRule d.condition_type d.field_name
        d.field_value with
    | some e' =>
      rw [hv] at hok
      exact absurd hok (by simp)
    | none =>
      rw [hv] at hok
      refine ⟨rfl, ?_⟩
      simp only [Except.ok.injEq, Prod.mk.injEq] at hok
      rw [← hok.2, ← hok.1]

/-- Witness for C2: a GREATER_THAN rule on `description`, a GREATER_THAN
rule on `amount` with a non-numeric literal, and a REGEX rule with an
unbalanced parenthesis are each rejected with the corresponding
`ValidationError`. -/
theorem rule_validation_rejects_witness :
    Engine.createCategorizationRule Engine.exState 3
        { company := 1, category := 10, name := "bad1",
          condition_type := ConditionType.GREATER_THAN,
          field_name := FieldName.description, field_value := "10",
          priority := none, is_active := none } =
      Except.error Engine.ValidationErrorKind.InvalidFieldCombination ∧
    Engine.createCategorizationRule Engine.exState 3
        { company := 1, category := 10, name := "bad2",
          condition_type := ConditionType.GREATER_THAN,
          field_name := FieldName.amount, field_value := "abc",
          priority := none, is_active := none } =
      Except.error Engine.ValidationErrorKind.InvalidNumericLiteral ∧
    Engine.createCategorizationRule Engine.exState 3
        { company := 1, category := 10, name := "bad3",
          condition_type := ConditionType.REGEX,
          field_name := FieldName.description, field_value := "(ab",
          priority := none, is_active := none } =
      Except.error Engine.ValidationErrorKind.InvalidPattern :=
  ⟨(rule_validation_rejects Engine.exState 3
      { company := 1, category := 10, name := "bad1",
        condition_type := ConditionType.GREATER_THAN,
        field_name := FieldName.description, field_value := "10",
        priority := none, is_active := none } 0
      { category := none, name := none, condition_type := none,
        field_name := none, field_value := none, priority := none,
        is_active := none } Engine.exRuleA
      Engine.ValidationErrorKind.InvalidPattern).1 rfl (by decide),
   (rule_validation_rejects Engine.exState 3
      { company := 1, category := 10, name := "bad2",
        condition_type := ConditionType.GREATER_THAN,
        field_name := FieldName.amount, field_value := "abc",
        priority := none, is_active := none } 0
      { category := none, name := none, condition_type := none,
        field_name := none, field_value := none, priority := none,
        is_active := none } Engine.exRuleA
      Engine.ValidationErrorKind.InvalidPattern).2.1 rfl rfl (by decide),
   (rule_validation_rejects Engine.exState 3
      { company := 1, category := 10, name := "bad3",
        condition_type := ConditionType.REGEX,
        field_name := FieldName.description, field_value := "(ab",
        priority := none, is_active := none } 0
      { category := none, name := none, condition_type := none,
        field_name := none, field_value := none, priority := none,
        is_active := none } Engine.exRuleA
      Engine.ValidationErrorKind.InvalidPattern).2.2.1 rfl (by decide)⟩

/-- The empty needle is an infix of every character list. -/
theorem isInfixB_nil (l : List Char) : Engine.isInfixB [] l = true := by
  induction l with
  | nil => rfl
  | cons c rest ih =>
    simp only [Engine.isInfixB, Bool.or_eq_true]
    exact Or.inl rfl

/-- C6: for CONTAINS, STARTS_WITH, ENDS_WITH and EQUALS on a string field
the condition test is case-insensitive — replacing the pattern and the
field content by case variants (equal after lowering) never changes the
verdict; for CONTAINS/STARTS_WITH/ENDS_WITH an empty `field_value`
matches every transaction; and EQUALS on the `amount` field is exact
numeric equality after decimal parsing. -/
theorem evaluate_string_semantics (ct : ConditionType) (fn : FieldName)
    (fv fv' : String) (t t' : Engine.Txn) :
    ((ct = ConditionType.CONTAINS ∨ ct = ConditionType.STARTS_WITH ∨
        ct = ConditionType.ENDS_WITH ∨ ct = ConditionType.EQUALS) →
      fn ≠ FieldName.amount →
      Engine.lowerChars fv' = Engine.lowerChars fv →
      Engine.lowerChars (Engine.fieldStr t' fn) =
        Engine.lowerChars (Engine.fieldStr t fn) →
      Engine.evaluate ct fn fv' t' = Engine.evaluate ct fn fv t) ∧
    ((ct = ConditionType.CONTAINS ∨ ct = ConditionType.STARTS_WITH ∨
        ct = ConditionType.ENDS_WITH) →
      Engine.evaluate ct fn "" t = Except.ok true) ∧
    (Engine.evaluate ConditionType.EQUALS FieldName.amount fv t =
      Except.ok (decide (Engine.parseDec fv = some t.amount))) := by
  refine ⟨?_, ?_, ?_⟩
  · intro hct hfn hfv hfield
    rcases hct with rfl | rfl | rfl | rfl
    · simp [Engine.evaluate, Engine.validateRule, Engine.numericCond,
        Engine.evalValid, hfv, hfield]
    · simp [Engine.evaluate, Engine.validateRule, Engine.numericCond,
        Engine.evalValid, hfv, hfield]
    · simp [Engine.evaluate, Engine.validateRule, Engine.numericCond,
        Engine.evalValid, hfv, hfield]
    · cases fn with
      | amount => exact absurd rfl hfn
      | description =>
        simp [Engine.evaluate, Engine.validateRule, Engine.numericCond,
          Engine.evalValid, hfv, hfield]
      | transaction_type =>
        simp [Engine.evaluate, Engine.validateRule, Engine.numericCond,
          Engine.evalValid, hfv, hfield]
      | category =>
        simp [Engine.evaluate, Engine.validateRule, Engine.numericCond,
          Engine.evalValid, hfv, hfield]
  · intro hct
    have hnil : Engine.lowerChars "" = [] := rfl
    rcases hct with rfl | rfl | rfl
    · simp [Engine.evaluate, Engine.validateRule, Engine.numericCond,
        Engine.evalValid, hnil, isInfixB_nil]
    · simp [Engine.evaluate, Engine.validateRule, Engine.numericCond,
        Engine.evalValid, hnil, Engine.isPrefixB]
    · simp [Engine.evaluate, Engine.validateRule, Engine.numericCond,
        Engine.evalValid, hnil, Engine.isSuffixB, Engine.isPrefixB]
  · simp only [Engine.evaluate, Engine.validateRule, Engine.numericCond,
      Engine.evalValid]
    cases hp : Engine.parseDec fv with
    | none => simp [hp]
    | some q =>
      simp only
      rcases eq_or_ne t.amount q with heq | hne
      · subst heq
        simp
      · simp [beq_eq_false_iff_ne.2 hne, Ne.symm hne]

/-- Witness for C6: `salario` in upper case matches the upper-cased
description exactly as the lower-cased pair does, and the empty pattern
matches the example transaction. -/
theorem evaluate_string_semantics_witness :
    (Engine.lowerChars "SALARIO" = Engine.lowerChars "salario") ∧
    Engine.evaluate ConditionType.CONTAINS FieldName.description "SALARIO"
        { Engine.exTxn with description := "PAGAMENTO SALARIO MENSAL" } =
      Engine.evaluate ConditionType.CONTAINS FieldName.description "salario"
        Engine.exTxn ∧
    Engine.evaluate ConditionType.CONTAINS FieldName.description "salario"
        Engine.exTxn = Except.ok true ∧
    Engine.evaluate ConditionType.ENDS_WITH FieldName.description ""
        Engine.exTxn = Except.ok true :=
  ⟨by decide,
   (evaluate_string_semantics ConditionType.CONTAINS FieldName.description
      "salario" "SALARIO"
      Engine.exTxn { Engine.exTxn with description := "PAGAMENTO SALARIO MENSAL" }).1
      (Or.inl rfl) (by decide) (by decide) (by decide),
   by rfl,
   (evaluate_string_semantics ConditionType.ENDS_WITH FieldName.description
      "x" "y" Engine.exTxn Engine.exTxn).2.1 (Or.inr (Or.inr rfl))⟩

/-- The matcher returns `none` (Uncategorized) exactly when no rule in the
list matches. -/
theorem matchRule_none_iff (t : Engine.Txn) :
    ∀ rules : List Engine.Rule,
      Engine.matchRule t rules = none ↔
        ∀ r ∈ rules, Engine.ruleMatches r t = false := by
  intro rules
  induction rules with
  | nil => simp [Engine.matchRule]
  | cons r rs ih =>
    by_cases h : Engine.ruleMatches r t
    · simp [Engine.matchRule, h]
    · have hf : Engine.ruleMatches r t = false := by simpa using h
      simp [Engine.matchRule, h, ih, hf]

/-- A successful match decomposes the list: there is a first matching rule,
everything before it does not match, and the result is that very rule
category and id. -/
theorem matchRule_some_split (t : Engine.Txn) :
    ∀ (rules : List Engine.Rule) (c rid : Nat),
      Engine.matchRule t rules = some (c, rid) →
      ∃ pre r post, rules = pre ++ r :: post ∧
        Engine.ruleMatches r t = true ∧ r.category = c ∧ r.id = rid ∧
        ∀ r' ∈ pre, Engine.ruleMatches r' t = false := by
  intro rules
  induction rules with
  | nil => intro c rid h; simp [Engine.matchRule] at h
  | cons r rs ih =>
    intro c rid h
    by_cases hm : Engine.ruleMatches r t
    · refine ⟨[], r, rs, by simp, hm, ?_, ?_, by simp⟩
      · simpa [Engine.matchRule, hm] using congrArg (Option.map Prod.fst) h
      · simpa [Engine.matchRule, hm] using congrArg (Option.map Prod.snd) h
    · rw [Engine.matchRule, if_neg hm] at h
      obtain ⟨pre, r', post, hsplit, hr', hc, hid, hpre⟩ := ih c rid h
      refine ⟨r :: pre, r', post, by simp [hsplit], hr', hc, hid, ?_⟩
      intro x hx
      rcases List.mem_cons.1 hx with rfl | hx
      · simpa using hm
      · exact hpre x hx

/-- C4: `match` returns the category and rule id of the first rule in the
given order whose condition matches (everything earlier in the order does
not match, so no further rule influences the result); when nothing
matches the result is `none` — Uncategorized, a valid value and not an
error; and on the concrete spec scenario (priority 1 `CONTAINS salario`
→ category 10, priority 2 `CONTAINS sal` → category 20) the transaction
described `Pagamento salario mensal` is assigned category 10 by rule 1. -/
theorem matchRule_first_match_wins (t : Engine.Txn)
    (rules : List Engine.Rule) (c rid : Nat) :
    (Engine.matchRule t rules = none ↔
      ∀ r ∈ rules, Engine.ruleMatches r t = false) ∧
    (Engine.matchRule t rules = some (c, rid) →
      ∃ pre r post, rules = pre ++ r :: post ∧
        Engine.ruleMatches r t = true ∧ r.category = c ∧ r.id = rid ∧
        ∀ r' ∈ pre, Engine.ruleMatches r' t = false) ∧
    Engine.matchRule Engine.exTxn
        (Engine.order [Engine.exRuleB, Engine.exRuleA]) = some (10, 1) :=
  ⟨matchRule_none_iff t rules, matchRule_some_split t rules c rid, by decide⟩

/-- Witness for C4 on the concrete spec scenario: the successful match
decomposes with rule `exRuleA` first. -/
theorem matchRule_first_match_wins_witness :
    ∃ pre r post,
      Engine.order [Engine.exRuleB, Engine.exRuleA] = pre ++ r :: post ∧
      Engine.ruleMatches r Engine.exTxn = true ∧ r.category = 10 ∧
      r.id = 1 ∧ ∀ r' ∈ pre, Engine.ruleMatches r' Engine.exTxn = false :=
  (matchRule_first_match_wins Engine.exTxn
      (Engine.order [Engine.exRuleB, Engine.exRuleA]) 10 1).2.1 (by decide)

/-- C1: `apply_categorization` returns a batch result carrying
`categorized_count`, `total_transactions` and a `failures` list of
(transaction id, reason) pairs — it is a total function, so it never
raises — and applying it to a single nonexistent transaction id yields
exactly one failure naming that id, `categorized_count` 0 and
`total_transactions` 0. -/
theorem applyCategorization_missing_id (st : Engine.EngineState)
    (cid i : Nat) (txIds : Option (List Nat)) :
    ((Engine.applyCategorization st cid txIds).1 =
      { categorized_count :=
          (Engine.applyCategorization st cid txIds).1.categorized_count,
        total_transactions :=
          (Engine.applyCategorization st cid txIds).1.total_transactions,
        failures := (Engine.applyCategorization st cid txIds).1.failures }) ∧
    ((∀ t ∈ st.transactions, t.company = cid → t.id ≠ i) →
      (Engine.applyCategorization st cid (some [i])).1.categorized_count = 0 ∧
      (Engine.applyCategorization st cid (some [i])).1.total_transactions = 0 ∧
      (Engine.applyCategorization st cid (some [i])).1.failures =
        [(i, "transaction not found")]) := by
  refine ⟨rfl, fun hmiss => ?_⟩
  have htargets : st.transactions.filter (Engine.isTarget cid (some [i])) = [] := by
    rw [List.filter_eq_nil_iff]
    intro t ht
    simp only [Engine.isTarget, Bool.and_eq_true, beq_iff_eq, Bool.not_eq_true,
      Bool.and_eq_false_iff]
    by_cases hc : t.company = cid
    · have := hmiss t ht hc
      simp [hc, this]
    · simp [hc]
  have hany : st.transactions.any (fun t => t.company == cid && t.id == i) = false := by
    rw [List.any_eq_false]
    intro t ht
    simp only [Bool.and_eq_true, beq_iff_eq, not_and]
    exact fun hc => hmiss t ht hc
  refine ⟨?_, ?_, ?_⟩
  · show (st.transactions.filter (Engine.isTarget cid (some [i]))).countP _ = 0
    rw [htargets]
    rfl
  · show (st.transactions.filter (Engine.isTarget cid (some [i]))).length = 0
    rw [htargets]
    rfl
  · show (([i].filter fun j =>
        !(st.transactions.any (fun t => t.company == cid && t.id == j))).map
        fun j => (j, "transaction not found")) = [(i, "transaction not found")]
    simp [hany]

/-- Witness for C1: on the example state, requesting the nonexistent
transaction id 99 yields one failure and no categorizations. -/
theorem applyCategorization_missing_id_witness :
    (Engine.applyCategorization Engine.exState 1 (some [99])).1.categorized_count = 0 ∧
    (Engine.applyCategorization Engine.exState 1 (some [99])).1.total_transactions = 0 ∧
    (Engine.applyCategorization Engine.exState 1 (some [99])).1.failures =
      [(99, "transaction not found")] :=
  (applyCategorization_missing_id Engine.exState 1 99 none).2 (by decide)

/-- Two sorted lists that are permutations of each other are equal,
provided the order is antisymmetric on the members of the first list. -/
theorem sorted_perm_eq {α : Type} {r : α → α → Prop} :
    ∀ (l₁ l₂ : List α), l₁.Perm l₂ → l₁.Sorted r → l₂.Sorted r →
      (∀ a ∈ l₁, ∀ b ∈ l₁, r a b → r b a → a = b) → l₁ = l₂
  | [], _, hp, _, _, _ => hp.nil_eq
  | a :: t₁, l₂, hp, hs₁, hs₂, hanti => by
    cases l₂ with
    | nil => exact absurd hp.symm.nil_eq (by simp)
    | cons b t₂ =>
      have hab : a = b := by
        by_contra hne
        have hbmem : b ∈ a :: t₁ := hp.mem_iff.2 (List.mem_cons_self b t₂)
        have hamem : a ∈ b :: t₂ := hp.mem_iff.1 (List.mem_cons_self a t₁)
        have hbt : b ∈ t₁ := by
          rcases List.mem_cons.1 hbmem with h | h
          · exact absurd h.symm hne
          · exact h
        have hat : a ∈ t₂ := by
          rcases List.mem_cons.1 hamem with h | h
          · exact absurd h hne
          · exact h
        have hrab : r a b := List.rel_of_sorted_cons hs₁ b hbt
        have hrba : r b a := List.rel_of_sorted_cons hs₂ a hat
        exact hne (hanti a (List.mem_cons_self a t₁) b hbmem hrab hrba)
      subst hab
      have hp' : t₁.Perm t₂ := hp.cons_inv
      have ht : t₁ = t₂ :=
        sorted_perm_eq t₁ t₂ hp' hs₁.of_cons hs₂.of_cons
          (fun x hx y hy => hanti x (List.mem_cons_of_mem a hx) y
            (List.mem_cons_of_mem a hy))
      rw [ht]

/-- C5: `order` filters the rule set to the rules with `is_active` true,
sorts ascending by priority with ties broken by ascending rule id, and is
a deterministic function of the `(priority, id)` pairs: on inputs that are
permutations of each other (rule ids being distinct identifiers), it
yields the same sequence, independent of the iteration order of the input. -/
theorem order_deterministic (l₁ l₂ : List Engine.Rule) :
    (∀ r : Engine.Rule, r ∈ Engine.order l₁ ↔ r ∈ l₁ ∧ r.is_active = true) ∧
    (Engine.order l₁).Sorted Engine.ruleLE ∧
    (l₁.Perm l₂ → (∀ a ∈ l₁, ∀ b ∈ l₁, a.id = b.id → a = b) →
      Engine.order l₁ = Engine.order l₂) := by
  refine ⟨?_, ?_, ?_⟩
  · intro r
    unfold Engine.order
    rw [List.mem_insertionSort, List.mem_filter]
  · exact List.sorted_insertionSort Engine.ruleLE _
  · intro hperm hids
    have hmem : ∀ r ∈ Engine.order l₁, r ∈ l₁ := by
      intro r hr
      unfold Engine.order at hr
      exact (List.mem_filter.1 ((List.mem_insertionSort Engine.ruleLE).1 hr)).1
    have hp : (Engine.order l₁).Perm (Engine.order l₂) := by
      unfold Engine.order
      exact ((List.perm_insertionSort Engine.ruleLE _).trans
        (hperm.filter _)).trans (List.perm_insertionSort Engine.ruleLE _).symm
    refine sorted_perm_eq _ _ hp (List.sorted_insertionSort Engine.ruleLE _)
      (List.sorted_insertionSort Engine.ruleLE _) ?_
    intro a ha b hb hab hba
    have hideq : a.id = b.id := by
      unfold Engine.ruleLE at hab hba
      omega
    exact hids a (hmem a ha) b (hmem b hb) hideq

/-- Witness for C5: the two orderings of the example rule pair produce the
same sequence. -/
theorem order_deterministic_witness :
    ([Engine.exRuleA, Engine.exRuleB].Perm [Engine.exRuleB, Engine.exRuleA]) ∧
    Engine.order [Engine.exRuleA, Engine.exRuleB] =
      Engine.order [Engine.exRuleB, Engine.exRuleA] :=
  ⟨List.Perm.swap Engine.exRuleB Engine.exRuleA [],
   (order_deterministic [Engine.exRuleA, Engine.exRuleB]
      [Engine.exRuleB, Engine.exRuleA]).2.2
      (List.Perm.swap Engine.exRuleB Engine.exRuleA []) (by decide)⟩

/-- Categorizing a transaction leaves its id unchanged. -/
theorem categorizeTxn_id (os : List Engine.Rule) (t : Engine.Txn) :
    (Engine.categorizeTxn os t).id = t.id := by
  cases h : Engine.matchRule t os with
  | none => simp [Engine.categorizeTxn, h]
  | some p =>
    obtain ⟨c, rid⟩ := p
    simp [Engine.categorizeTxn, h]

/-- Categorizing a transaction leaves its company unchanged. -/
theorem categorizeTxn_company (os : List Engine.Rule) (t : Engine.Txn) :
    (Engine.categorizeTxn os t).company = t.company := by
  cases h : Engine.matchRule t os with
  | none => simp [Engine.categorizeTxn, h]
  | some p =>
    obtain ⟨c, rid⟩ := p
    simp [Engine.categorizeTxn, h]

/-- Categorizing a transaction leaves its amount unchanged. -/
theorem categorizeTxn_amount (os : List Engine.Rule) (t : Engine.Txn) :
    (Engine.categorizeTxn os t).amount = t.amount := by
  cases h : Engine.matchRule t os with
  | none => simp [Engine.categorizeTxn, h]
  | some p =>
    obtain ⟨c, rid⟩ := p
    simp [Engine.categorizeTxn, h]

/-- Categorizing a transaction changes none of the fields the evaluator
reads. -/
theorem categorizeTxn_fieldStr (os : List Engine.Rule) (t : Engine.Txn)
    (fn : FieldName) :
    Engine.fieldStr (Engine.categorizeTxn os t) fn = Engine.fieldStr t fn := by
  cases h : Engine.matchRule t os with
  | none => simp [Engine.categorizeTxn, h]
  | some p =>
    obtain ⟨c, rid⟩ := p
    cases fn <;> simp [Engine.categorizeTxn, h, Engine.fieldStr]

/-- Condition evaluation only depends on the evaluator-read fields. -/
theorem evalValid_ext (ct : ConditionType) (fn : FieldName) (fv : String)
    (t t' : Engine.Txn)
    (hf : ∀ g, Engine.fieldStr t' g = Engine.fieldStr t g)
    (ha : t'.amount = t.amount) :
    Engine.evalValid ct fn fv t' = Engine.evalValid ct fn fv t := by
  cases ct
  case EQUALS => cases fn <;> simp [Engine.evalValid, hf, ha]
  all_goals simp [Engine.evalValid, hf, ha]

/-- The Condition Evaluator only depends on the evaluator-read fields. -/
theorem evaluate_ext (ct : ConditionType) (fn : FieldName) (fv : String)
    (t t' : Engine.Txn)
    (hf : ∀ g, Engine.fieldStr t' g = Engine.fieldStr t g)
    (ha : t'.amount = t.amount) :
    Engine.evaluate ct fn fv t' = Engine.evaluate ct fn fv t := by
  unfold Engine.evaluate
  cases h : Engine.validateRule ct fn fv with
  | some e => rfl
  | none => rw [evalValid_ext ct fn fv t t' hf ha]

/-- A rule matches a categorized transaction exactly as it matches the
original. -/
theorem ruleMatches_categorizeTxn (r : Engine.Rule) (os : List Engine.Rule)
    (t : Engine.Txn) :
    Engine.ruleMatches r (Engine.categorizeTxn os t) = Engine.ruleMatches r t := by
  unfold Engine.ruleMatches
  rw [evaluate_ext r.condition_type r.field_name r.field_value t
    (Engine.categorizeTxn os t) (categorizeTxn_fieldStr os t)
    (categorizeTxn_amount os t)]

/-- The matcher is blind to a previous categorization. -/
theorem matchRule_categorizeTxn (t : Engine.Txn) (os os' : List Engine.Rule) :
    Engine.matchRule (Engine.categorizeTxn os' t) os = Engine.matchRule t os := by
  induction os with
  | nil => rfl
  | cons r rs ih => simp [Engine.matchRule, ruleMatches_categorizeTxn, ih]

/-- Categorizing twice against the same snapshot equals categorizing
once. -/
theorem categorizeTxn_idem (os : List Engine.Rule) (t : Engine.Txn) :
    Engine.categorizeTxn os (Engine.categorizeTxn os t) =
      Engine.categorizeTxn os t := by
  cases h : Engine.matchRule t os with
  | none =>
    have h1 : Engine.categorizeTxn os t = t := by simp [Engine.categorizeTxn, h]
    rw [h1, h1]
  | some p =>
    obtain ⟨c, rid⟩ := p
    have h1 : Engine.categorizeTxn os t = { t with assigned_category := some c } := by
      simp [Engine.categorizeTxn, h]
    have h2 : Engine.matchRule (Engine.categorizeTxn os t) os = some (c, rid) := by
      rw [matchRule_categorizeTxn, h]
    rw [h1] at h2
    rw [h1]
    simp [Engine.categorizeTxn, h2]

/-- Target membership is preserved by categorization. -/
theorem isTarget_categorizeTxn (cid : Nat) (txIds : Option (List Nat))
    (os : List Engine.Rule) (t : Engine.Txn) :
    Engine.isTarget cid txIds (Engine.categorizeTxn os t) =
      Engine.isTarget cid txIds t := by
  unfold Engine.isTarget
  rw [categorizeTxn_company, categorizeTxn_id]

/-- The batch step preserves the transaction id. -/
theorem applyStep_id (st : Engine.EngineState) (cid : Nat)
    (txIds : Option (List Nat)) (t : Engine.Txn) :
    (Engine.applyStep st cid txIds t).id = t.id := by
  unfold Engine.applyStep
  split
  · exact categorizeTxn_id _ t
  · rfl

/-- The batch step preserves the transaction company. -/
theorem applyStep_company (st : Engine.EngineState) (cid : Nat)
    (txIds : Option (List Nat)) (t : Engine.Txn) :
    (Engine.applyStep st cid txIds t).company = t.company := by
  unfold Engine.applyStep
  split
  · exact categorizeTxn_company _ t
  · rfl

/-- The batch step preserves target membership. -/
theorem isTarget_applyStep (st : Engine.EngineState) (cid : Nat)
    (txIds : Option (List Nat)) (t : Engine.Txn) :
    Engine.isTarget cid txIds (Engine.applyStep st cid txIds t) =
      Engine.isTarget cid txIds t := by
  unfold Engine.applyStep
  split
  · exact isTarget_categorizeTxn cid txIds _ t
  · rfl

/-- The matcher sees the stepped transaction as the original. -/
theorem matchRule_applyStep (st : Engine.EngineState) (cid : Nat)
    (txIds : Option (List Nat)) (os : List Engine.Rule) (t : Engine.Txn) :
    Engine.matchRule (Engine.applyStep st cid txIds t) os =
      Engine.matchRule t os := by
  unfold Engine.applyStep
  split
  · exact matchRule_categorizeTxn t os _
  · rfl

/-- The batch step is idempotent on each transaction. -/
theorem applyStep_applyStep (st : Engine.EngineState) (cid : Nat)
    (txIds : Option (List Nat)) (t : Engine.Txn) :
    Engine.applyStep st cid txIds (Engine.applyStep st cid txIds t) =
      Engine.applyStep st cid txIds t := by
  by_cases h : Engine.isTarget cid txIds t = true
  · have h1 : Engine.applyStep st cid txIds t =
        Engine.categorizeTxn (Engine.orderedRulesFor st cid) t := by
      unfold Engine.applyStep
      rw [if_pos h]
    rw [h1]
    unfold Engine.applyStep
    rw [isTarget_categorizeTxn, if_pos h, categorizeTxn_idem]
  · have h1 : Engine.applyStep st cid txIds t = t := by
      unfold Engine.applyStep
      rw [if_neg h]
    rw [h1, h1]

/-- Extensionality for batch results. -/
theorem batchResult_ext {a b : Engine.BatchResult}
    (h1 : a.categorized_count = b.categorized_count)
    (h2 : a.total_transactions = b.total_transactions)
    (h3 : a.failures = b.failures) : a = b := by
  cases a
  cases b
  cases h1
  cases h2
  cases h3
  rfl

/-- Extensionality for engine states. -/
theorem engineState_ext {a b : Engine.EngineState}
    (h1 : a.rules = b.rules) (h2 : a.transactions = b.transactions) : a = b := by
  cases a
  cases b
  cases h1
  cases h2
  rfl

/-- The categorized count of a batch run, unfolded. -/
theorem apply_count (st : Engine.EngineState) (cid : Nat)
    (txIds : Option (List Nat)) :
    (Engine.applyCategorization st cid txIds).1.categorized_count =
      (st.transactions.filter (Engine.isTarget cid txIds)).countP
        (fun t => (Engine.matchRule t (Engine.orderedRulesFor st cid)).isSome) :=
  rfl

/-- The total transaction count of a batch run, unfolded. -/
theorem apply_total (st : Engine.EngineState) (cid : Nat)
    (txIds : Option (List Nat)) :
    (Engine.applyCategorization st cid txIds).1.total_transactions =
      (st.transactions.filter (Engine.isTarget cid txIds)).length :=
  rfl

/-- A batch run over the whole company records no failures. -/
theorem apply_failures_none (st : Engine.EngineState) (cid : Nat) :
    (Engine.applyCategorization st cid none).1.failures = [] :=
  rfl

/-- The failures of a batch run over an id subset, unfolded. -/
theorem apply_failures_some (st : Engine.EngineState) (cid : Nat)
    (ids : List Nat) :
    (Engine.applyCategorization st cid (some ids)).1.failures =
      (ids.filter (fun i =>
        !(st.transactions.any (fun t => t.company == cid && t.id == i)))).map
        (fun i => (i, "transaction not found")) :=
  rfl

/-- The post-state transactions of a batch run, unfolded. -/
theorem apply_txns (st : Engine.EngineState) (cid : Nat)
    (txIds : Option (List Nat)) :
    (Engine.applyCategorization st cid txIds).2.transactions =
      st.transactions.map (Engine.applyStep st cid txIds) :=
  rfl

/-- A batch run leaves the rule table unchanged. -/
theorem apply_rules (st : Engine.EngineState) (cid : Nat)
    (txIds : Option (List Nat)) :
    (Engine.applyCategorization st cid txIds).2.rules = st.rules :=
  rfl

/-- Re-running a batch on its own post-state reproduces the run exactly:
the same batch result and the same post-state. -/
theorem applyCategorization_twice (st : Engine.EngineState) (cid : Nat)
    (txIds : Option (List Nat)) :
    Engine.applyCategorization (Engine.applyCategorization st cid txIds).2 cid
        txIds = Engine.applyCategorization st cid txIds := by
  have hA : Engine.orderedRulesFor (Engine.applyCategorization st cid txIds).2
      cid = Engine.orderedRulesFor st cid := rfl
  have hstep : Engine.applyStep (Engine.applyCategorization st cid txIds).2 cid
      txIds = Engine.applyStep st cid txIds := rfl
  have hq : (Engine.isTarget cid txIds) ∘ (Engine.applyStep st cid txIds) =
      Engine.isTarget cid txIds :=
    funext (isTarget_applyStep st cid txIds)
  have hp : ((fun t => (Engine.matchRule t
        (Engine.orderedRulesFor st cid)).isSome) ∘
        (Engine.applyStep st cid txIds)) =
      (fun t => (Engine.matchRule t (Engine.orderedRulesFor st cid)).isSome) :=
    funext (fun t => by
      simp only [Function.comp_apply]
      rw [matchRule_applyStep])
  have hGG : (Engine.applyStep st cid txIds) ∘ (Engine.applyStep st cid txIds) =
      Engine.applyStep st cid txIds :=
    funext (applyStep_applyStep st cid txIds)
  refine Prod.ext (batchResult_ext ?_ ?_ ?_) (engineState_ext ?_ ?_)
  · rw [apply_count, apply_count, hA, apply_txns, List.filter_map,
      List.countP_map, hq, hp]
  · rw [apply_total, apply_total, apply_txns, List.filter_map,
      List.length_map, hq]
  · cases txIds with
    | none => rw [apply_failures_none, apply_failures_none]
    | some ids =>
      rw [apply_failures_some, apply_failures_some, apply_txns]
      simp only [List.any_map, Function.comp_def, applyStep_company,
        applyStep_id]
  · rw [apply_rules, apply_rules]
  · rw [apply_txns, apply_txns, hstep, List.map_map, hGG]

/-- C7: re-running `apply_categorization` on its own post-state with the
unchanged rule set is idempotent — the second run returns the same batch
result (in particular the same `categorized_count`) and the same category
assignment for every transaction — and a transaction matching no active
rule is left entirely unchanged by the run (a null category stays null). -/
theorem applyCategorization_idempotent (st : Engine.EngineState) (cid : Nat)
    (txIds : Option (List Nat)) :
    Engine.applyCategorization (Engine.applyCategorization st cid txIds).2 cid
        txIds = Engine.applyCategorization st cid txIds ∧
    (Engine.applyCategorization st cid txIds).2.transactions.length =
      st.transactions.length ∧
    ∀ (i : Nat) (h : i < st.transactions.length)
      (h' : i < (Engine.applyCategorization st cid txIds).2.transactions.length),
      Engine.matchRule (st.transactions.get ⟨i, h⟩)
          (Engine.orderedRulesFor st cid) = none →
      (Engine.applyCategorization st cid txIds).2.transactions.get ⟨i, h'⟩ =
        st.transactions.get ⟨i, h⟩ := by
  refine ⟨applyCategorization_twice st cid txIds, ?_, ?_⟩
  · rw [apply_txns, List.length_map]
  · intro i h h' hnone
    have hmap : (Engine.applyCategorization st cid txIds).2.transactions.get
        ⟨i, h'⟩ = Engine.applyStep st cid txIds (st.transactions.get ⟨i, h⟩) := by
      rw [List.get_eq_getElem, List.get_eq_getElem]
      simp only [apply_txns, List.getElem_map]
    rw [hmap]
    simp only [List.get_eq_getElem] at hnone ⊢
    unfold Engine.applyStep
    split
    · simp [Engine.categorizeTxn, hnone]
    · rfl

/-- Witness for C7: on the example state, running the batch twice is the
identity on the second run, and the unmatched transaction (index 1,
`Aluguel`) keeps its null category. -/
theorem applyCategorization_idempotent_witness :
    Engine.applyCategorization
        (Engine.applyCategorization Engine.exState 1 none).2 1 none =
      Engine.applyCategorization Engine.exState 1 none ∧
    (Engine.applyCategorization Engine.exState 1 none).2.transactions.get
        ⟨1, by decide⟩ = Engine.exState.transactions.get ⟨1, by decide⟩ :=
  ⟨(applyCategorization_idempotent Engine.exState 1 none).1,
   (applyCategorization_idempotent Engine.exState 1 none).2.2 1 (by decide)
     (by decide) (by decide)⟩

end FinanceHub
